import Mathlib

/-!
# Directory locking and rotational-media detection

A shallow embedding of `src/disk_util.hpp` (the POSIX build: the branches taken when neither
`_WIN32` nor `__APPLE__` is defined).

* The operating system is an oracle: every function takes the results of the system calls it
  makes as arguments and returns, next to its C++ return value, the list of system calls it
  issued together with their results (`Event`).  Diagnostic output on `std::cout` / `std::cerr`
  is not recorded.
* `LockDirectory` contains a `while` loop without a bound.  The loop is modelled with a fuel
  argument that bounds the number of iterations; `none` means the loop has not yet returned.
  The same convention is used for the `for (;;)` loop of `IsRotational`.
-/

/-! ## System calls -/

namespace Posix

/-- Result of `flock(fd, LOCK_EX | LOCK_NB)`: `ok` when it returns 0, otherwise `fail errno`. -/
inductive FlockResult where
  | ok
  | fail (errno : Nat)
deriving DecidableEq

/-- Value of `EWOULDBLOCK` (equal to `EAGAIN`) on Linux. -/
def EWOULDBLOCK : Nat := 11

/-- Result of `close(fd)`: `ok` when it returns 0, otherwise `failed released` when it returns -1.
POSIX leaves the state of the descriptor unspecified after a failing `close`; on Linux the
descriptor is released even when `close` reports an error.  `released` records which of the
two happened. -/
inductive CloseResult where
  | ok
  | failed (released : Bool)
deriving DecidableEq

/-- System calls issued by the code, each with the result the operating system gave. -/
inductive Event where
  | openDir (dirname : String) (result : Int)
  | flockEx (fd : Int) (r : FlockResult)
  | sleep (secs : Nat)
  | flockUn (fd : Int) (ok : Bool)
  | close (fd : Int) (r : CloseResult)
deriving DecidableEq

/-- The part of the process state the locking code acts on: the descriptors that are open and
the descriptors through which an exclusive advisory lock is held. -/
structure OsState where
  openFds : List Int
  locked : List Int
deriving DecidableEq

/-- Effect of one system call on the descriptor table.  A call that reports failure has no
effect, except a failing `close` that released the descriptor all the same.  Closing a
descriptor drops the advisory lock held through it. -/
def OsState.step (s : OsState) : Event → OsState
  | .openDir _ r => if r = -1 then s else { s with openFds := r :: s.openFds }
  | .flockEx fd .ok => { s with locked := fd :: s.locked }
  | .flockUn fd true => { s with locked := s.locked.erase fd }
  | .close fd .ok => { openFds := s.openFds.erase fd, locked := s.locked.erase fd }
  | .close fd (.failed true) => { openFds := s.openFds.erase fd, locked := s.locked.erase fd }
  | _ => s

/-- Effect of a sequence of system calls. -/
def OsState.run (s : OsState) (tr : List Event) : OsState :=
  tr.foldl OsState.step s

end Posix

open Posix

/-! ## `DiskUtil::LockDirectory` and `DiskUtil::UnlockDirectory` -/

namespace DiskUtil

/-- Seconds slept after a failed lock attempt: `10s` when `errno` is `EWOULDBLOCK`,
`60s` otherwise. -/
def retrySleep (errno : Nat) : Nat :=
  if EWOULDBLOCK = errno then 10 else 60

/-- The loop `while (0 != flock(dir_fd, LOCK_EX | LOCK_NB)) ...` of `LockDirectory`.
`flock i` is the outcome of the attempt number `i`; the first argument of type `Nat` is
the fuel. -/
def lockLoop (dir_fd : Int) (flock : Nat → FlockResult) : Nat → Nat → Option (List Event)
  | 0, _ => none
  | fuel + 1, i =>
    match flock i with
    | .ok => some [Event.flockEx dir_fd .ok]
    | .fail errno =>
      (lockLoop dir_fd flock fuel (i + 1)).map
        (fun tr => Event.flockEx dir_fd (.fail errno) :: Event.sleep (retrySleep errno) :: tr)

/-- Model of `DiskUtil::LockDirectory(dirname)`.  `openR` is the result of `open`: `none` for
-1, `some fd` for a descriptor.  Returns the C++ return value and the system calls made. -/
def LockDirectory (dirname : String) (openR : Option Nat) (flock : Nat → FlockResult)
    (fuel : Nat) : Option (Int × List Event) :=
  match openR with
  | none => some (-1, [Event.openDir dirname (-1)])
  | some fd =>
    (lockLoop (fd : Int) flock fuel 0).map
      (fun tr => ((fd : Int), Event.openDir dirname (fd : Int) :: tr))

/-- Model of `DiskUtil::UnlockDirectory(dir_fd, dirname)`.  `unR` tells whether
`flock(dir_fd, LOCK_UN)` returned 0; `closeR` is the result `close(dir_fd)` gives if called. -/
def UnlockDirectory (dir_fd : Int) (_dirname : String) (unR : Bool) (closeR : CloseResult) :
    Bool × List Event :=
  if unR = false then
    (false, [Event.flockUn dir_fd false])
  else if closeR ≠ CloseResult.ok then
    (false, [Event.flockUn dir_fd true, Event.close dir_fd closeR])
  else
    (true, [Event.flockUn dir_fd true, Event.close dir_fd closeR])

end DiskUtil

/-! ## `class DirectoryLock` -/

/-- The data members of `class DirectoryLock`. -/
structure DirectoryLock where
  fd_ : Int
  dirname_ : String
deriving DecidableEq

namespace DirectoryLock

/-- Model of `bool DirectoryLock::Lock()`: return value, guard afterwards, system calls. -/
def Lock (g : DirectoryLock) (openR : Option Nat) (flock : Nat → FlockResult) (fuel : Nat) :
    Option (Bool × DirectoryLock × List Event) :=
  if g.fd_ = -1 then
    match DiskUtil.LockDirectory g.dirname_ openR flock fuel with
    | none => none
    | some (fd, tr) => some (decide (fd ≠ -1), { g with fd_ := fd }, tr)
  else
    some (decide (g.fd_ ≠ -1), g, [])

/-- Model of `bool DirectoryLock::Unlock()`: return value, guard afterwards, system calls. -/
def Unlock (g : DirectoryLock) (unR : Bool) (closeR : CloseResult) :
    Bool × DirectoryLock × List Event :=
  if g.fd_ = -1 then
    (false, g, [])
  else
    let r := DiskUtil.UnlockDirectory g.fd_ g.dirname_ unR closeR
    if r.1 = false then
      (false, g, r.2)
    else
      (true, { g with fd_ := -1 }, r.2)

/-- Model of the constructor `DirectoryLock(dirname, lock)`; `fd_` starts at -1. -/
def ctor (dirname : String) (lock : Bool) (openR : Option Nat) (flock : Nat → FlockResult)
    (fuel : Nat) : Option (DirectoryLock × List Event) :=
  let g : DirectoryLock := { fd_ := -1, dirname_ := dirname }
  if lock then
    (g.Lock openR flock fuel).map (fun r => (r.2.1, r.2.2))
  else
    some (g, [])

/-- Model of the destructor, which calls `Unlock()` and drops its result: the system calls
made. -/
def dtor (g : DirectoryLock) (unR : Bool) (closeR : CloseResult) : List Event :=
  (g.Unlock unR closeR).2.2

end DirectoryLock

/-! ## A guard together with the descriptors it has opened -/

/-- A guard and the state of the descriptors opened through it. -/
structure GuardWorld where
  guard : DirectoryLock
  os : OsState
deriving DecidableEq

/-- One member call on a guard, with the results of the system calls it may make. -/
inductive GuardOp where
  | lock (openR : Option Nat) (flock : Nat → FlockResult) (fuel : Nat)
  | unlock (unR : Bool) (closeR : CloseResult)

/-- An operation is benign when it contains no `close` that fails and releases the
descriptor all the same. -/
def GuardOp.benign : GuardOp → Bool
  | .lock _ _ _ => true
  | .unlock _ closeR => decide (closeR ≠ CloseResult.failed true)

namespace GuardWorld

/-- World after construction of a guard, starting with no descriptor open. -/
def init (dirname : String) (lock : Bool) (openR : Option Nat) (flock : Nat → FlockResult)
    (fuel : Nat) : Option GuardWorld :=
  (DirectoryLock.ctor dirname lock openR flock fuel).map
    (fun r => { guard := r.1, os := OsState.run { openFds := [], locked := [] } r.2 })

/-- World after one member call; `none` when the call has not returned within its fuel. -/
def apply (w : GuardWorld) : GuardOp → Option GuardWorld
  | .lock openR flock fuel =>
    (w.guard.Lock openR flock fuel).map
      (fun r => { guard := r.2.1, os := w.os.run r.2.2 })
  | .unlock unR closeR =>
    let r := w.guard.Unlock unR closeR
    some { guard := r.2.1, os := w.os.run r.2.2 }

/-- World after a sequence of member calls. -/
def exec (w : GuardWorld) : List GuardOp → Option GuardWorld
  | [] => some w
  | op :: ops => (w.apply op).bind (fun w1 => exec w1 ops)

end GuardWorld

/-! ## `DiskUtil::IsRotational` and `DiskUtil::ShouldLock` -/

namespace Fs

/-- A normalised `fs::path` of the POSIX build: whether it starts at the root directory, and
its file names in order.  The empty path is relative with no file name; `/` is absolute with
no file name. -/
structure Path where
  absolute : Bool
  comps : List String
deriving DecidableEq

namespace Path

/-- The value of `fs::path()`. -/
def nil : Path := { absolute := false, comps := [] }

/-- Model of `path::empty()`. -/
def empty (p : Path) : Bool := !p.absolute && p.comps.isEmpty

/-- Model of `path::parent_path()` as C++17 [fs.path.decompose] defines it: the path itself
when it has no relative part (so the parent of `/` is `/`), otherwise the path without its
last file name. -/
def parent_path (p : Path) : Path :=
  if p.comps.isEmpty then p else { p with comps := p.comps.dropLast }

/-- Model of `path::has_parent_path()`, which C++17 defines as `!parent_path().empty()`. -/
def has_parent_path (p : Path) : Bool := !p.parent_path.empty

/-- Model of `operator/` with a relative file name on the right. -/
def append (p : Path) (name : String) : Path :=
  { p with comps := p.comps ++ [name] }

end Path

/-- What `IsRotational` asks of the operating system and the file system. -/
structure Env where
  /-- Result of `stat(dir)`: `none` when it fails, otherwise `st_dev`. -/
  stat : String → Option Nat
  /-- The glibc operation `major(dev)`. -/
  major : Nat → Nat
  /-- The glibc operation `minor(dev)`. -/
  minor : Nat → Nat
  /-- Result of `realpath(symlink, nullptr)`: `none` for a null pointer, otherwise the file
  names of the canonical pathname, which is absolute. -/
  realpath : String → Option (List String)
  /-- Result of `fs::exists`. -/
  fs_exists : Path → Bool
  /-- Result of opening a file with `std::ifstream`: `none` when `file.fail()` holds after
  `open`; otherwise what can be read from it, `none` when reading fails. -/
  ifstream_open : Path → Option (Option String)

end Fs

open Fs

namespace DiskUtil

/-- Model of `DiskUtil::DevicePath(dev_id)`; returns `fs::path()` when `realpath` fails. -/
def DevicePath (env : Env) (dev_id : Nat) : Path :=
  let symlink := "/sys/dev/block/" ++ toString (env.major dev_id) ++ ":" ++
    toString (env.minor dev_id)
  match env.realpath symlink with
  | none => Path.nil
  | some cs => { absolute := true, comps := cs }

/-- The value `device_path / "queue" / "rotational"`. -/
def rotationalFile (device_path : Path) : Path :=
  (device_path.append "queue").append "rotational"

/-- The loop `for (;;)` of `IsRotational`, with fuel.  `some (some filename)` when the loop
is left through `break`, `some none` when the function returns `false` from inside the loop,
`none` when the loop is still running after `fuel` iterations. -/
def walkUp (env : Env) : Nat → Path → Option (Option Path)
  | 0, _ => none
  | fuel + 1, device_path =>
    let filename := rotationalFile device_path
    if env.fs_exists filename then
      some (some filename)
    else if !device_path.has_parent_path then
      some none
    else
      walkUp env fuel device_path.parent_path

/-- Model of `getline(file, line)` on a freshly opened file: the characters before the first
newline; the line stays empty when nothing can be read. -/
def getline (content : Option String) : String :=
  match content with
  | none => ""
  | some s => String.mk (s.data.takeWhile (fun c => c != '\n'))

/-- The returned expression `!line.empty() && line.front() == '1'`. -/
def lineIsOne (line : String) : Bool :=
  !line.data.isEmpty && line.data.head? == some '1'

/-- Model of `DiskUtil::IsRotational(dir)`; `none` when the loop has not returned within
`fuel` iterations. -/
def IsRotational (env : Env) (fuel : Nat) (dir : String) : Option Bool :=
  match env.stat dir with
  | none => some false
  | some st_dev =>
    let device_path := DevicePath env st_dev
    if device_path.empty then
      some false
    else
      match walkUp env fuel device_path with
      | none => none
      | some none => some false
      | some (some filename) =>
        match env.ifstream_open filename with
        | none => some false
        | some content => some (lineIsOne (getline content))

/-- Model of `DiskUtil::ShouldLock(dir)`. -/
def ShouldLock (env : Env) (fuel : Nat) (dir : String) : Option Bool :=
  IsRotational env fuel dir

end DiskUtil

/-! ## Example device trees -/

namespace Fixture

/-- A device tree in which `/sys/devices/pci0/block/sda` carries the attribute
`queue/rotational` with the given content, and every device number resolves to the
partition `/sys/devices/pci0/block/sda/sda1`. -/
def diskEnv (content : String) : Env where
  stat := fun dir => if dir = "/plots" then some 2049 else none
  major := fun d => d / 256
  minor := fun d => d % 256
  realpath := fun _ => some ["sys", "devices", "pci0", "block", "sda", "sda1"]
  fs_exists := fun p =>
    decide (p = { absolute := true,
                  comps := ["sys", "devices", "pci0", "block", "sda", "queue", "rotational"] })
  ifstream_open := fun _ => some (some content)

/-- A device tree in which the device resolves to `/sys/devices/virtual/bdi` and no node
carries the attribute `queue/rotational`. -/
def bareEnv : Env where
  stat := fun _ => some 35
  major := fun d => d / 256
  minor := fun d => d % 256
  realpath := fun _ => some ["sys", "devices", "virtual", "bdi"]
  fs_exists := fun _ => false
  ifstream_open := fun _ => none

/-- Lock attempts that meet contention, then an unexpected error (`EACCES`), then succeed. -/
def flockTwoFailures : Nat → FlockResult
  | 0 => FlockResult.fail EWOULDBLOCK
  | 1 => FlockResult.fail 13
  | _ => FlockResult.ok

end Fixture

/-! ## Definitions used to state the properties -/

/-- Number of lock attempts `flock(fd, LOCK_EX | LOCK_NB)` in a list of system calls. -/
def lockAttempts (tr : List Event) : Nat :=
  tr.countP (fun e => match e with
    | .flockEx _ _ => true
    | _ => false)

/-- Number of `open` calls in a list of system calls; `LockDirectory` is the only function
that calls `open`, once per call. -/
def acquisitions (tr : List Event) : Nat :=
  tr.countP (fun e => match e with
    | .openDir _ _ => true
    | _ => false)

/-- The sleep the specification prescribes after a failed lock attempt: the short interval
(10 s) after the contention signal, the long interval (60 s) after any other error. -/
def specSleep (r : FlockResult) : Nat :=
  if r = FlockResult.fail EWOULDBLOCK then 10 else 60

/-- The system calls the specification prescribes for an acquisition whose first `n` lock
attempts fail and whose next attempt succeeds: the `open`, then each failed attempt followed
by its sleep, then the successful attempt. -/
def specAcquireTrace (dirname : String) (fd : Int) (flock : Nat → FlockResult) (n : Nat) :
    List Event :=
  Event.openDir dirname fd ::
    ((List.range n).flatMap (fun i => [Event.flockEx fd (flock i), Event.sleep (specSleep (flock i))])
      ++ [Event.flockEx fd FlockResult.ok])

/-- The descriptors opened through the guard are none at all, or exactly the one stored in a
locked guard. -/
def GuardWorld.atMostHeld (w : GuardWorld) : Prop :=
  w.os.openFds = [] ∨ (w.guard.fd_ ≠ -1 ∧ w.os.openFds = [w.guard.fd_])

/-- The descriptors opened through the guard are exactly: none when `fd_ == -1`, the one
stored in `fd_` otherwise. -/
def GuardWorld.exactlyHeld (w : GuardWorld) : Prop :=
  w.os.openFds = if w.guard.fd_ = -1 then [] else [w.guard.fd_]

/-! ## Auxiliary lemmas -/

theorem retrySleep_eq_specSleep (errno : Nat) :
    DiskUtil.retrySleep errno = specSleep (FlockResult.fail errno) := by
  unfold DiskUtil.retrySleep specSleep
  by_cases h : EWOULDBLOCK = errno
  · simp [h]
  · have h2 : ¬ errno = EWOULDBLOCK := fun e => h e.symm
    simp [h, h2]

theorem lockLoop_from (fd : Int) (flock : Nat → FlockResult) :
    ∀ (n i fuel : Nat), (∀ j, j < n → flock (i + j) ≠ FlockResult.ok) →
      flock (i + n) = FlockResult.ok → n < fuel →
      DiskUtil.lockLoop fd flock fuel i =
        some ((List.range' i n).flatMap
          (fun k => [Event.flockEx fd (flock k), Event.sleep (specSleep (flock k))])
            ++ [Event.flockEx fd FlockResult.ok]) := by
  intro n
  induction n with
  | zero =>
    intro i fuel _ hok hfuel
    obtain ⟨f, rfl⟩ : ∃ f, fuel = f + 1 := ⟨fuel - 1, by omega⟩
    simp only [Nat.add_zero] at hok
    simp [DiskUtil.lockLoop, hok]
  | succ n ih =>
    intro i fuel hfail hok hfuel
    obtain ⟨f, rfl⟩ : ∃ f, fuel = f + 1 := ⟨fuel - 1, by omega⟩
    have h0 : flock i ≠ FlockResult.ok := by simpa using hfail 0 (Nat.succ_pos n)
    have ih1 := ih (i + 1) f
      (fun j hj => by
        have := hfail (j + 1) (by omega)
        rwa [show i + (j + 1) = i + 1 + j by omega] at this)
      (by rwa [show i + 1 + n = i + (n + 1) by omega])
      (by omega)
    cases hfi : flock i with
    | ok => exact absurd hfi h0
    | fail errno =>
      simp [DiskUtil.lockLoop, hfi, ih1, List.range'_succ, retrySleep_eq_specSleep]

theorem lockLoop_starved (fd : Int) (flock : Nat → FlockResult) :
    ∀ (fuel i : Nat), (∀ j, j < fuel → flock (i + j) ≠ FlockResult.ok) →
      DiskUtil.lockLoop fd flock fuel i = none := by
  intro fuel
  induction fuel with
  | zero => intro i _; rfl
  | succ f ih =>
    intro i hfail
    have h0 : flock i ≠ FlockResult.ok := by simpa using hfail 0 (Nat.succ_pos f)
    have ih1 := ih (i + 1) (fun j hj => by
      have := hfail (j + 1) (by omega)
      rwa [show i + (j + 1) = i + 1 + j by omega] at this)
    cases hfi : flock i with
    | ok => exact absurd hfi h0
    | fail errno => simp [DiskUtil.lockLoop, hfi, ih1]

theorem lockAttempts_retry (fd : Int) (flock : Nat → FlockResult) (n i : Nat) :
    lockAttempts ((List.range' i n).flatMap
      (fun k => [Event.flockEx fd (flock k), Event.sleep (specSleep (flock k))])
        ++ [Event.flockEx fd FlockResult.ok]) = n + 1 := by
  induction n generalizing i with
  | zero => simp [lockAttempts]
  | succ n ih =>
    have := ih (i + 1)
    simp only [lockAttempts] at this
    simp [lockAttempts, List.range'_succ, List.countP_cons, this]

theorem acquisitions_lockLoop (fd : Int) (flock : Nat → FlockResult) :
    ∀ (fuel i : Nat) (tr : List Event), DiskUtil.lockLoop fd flock fuel i = some tr →
      acquisitions tr = 0 := by
  intro fuel
  induction fuel with
  | zero => intro i tr h; simp [DiskUtil.lockLoop] at h
  | succ f ih =>
    intro i tr h
    cases hfi : flock i with
    | ok =>
      simp [DiskUtil.lockLoop, hfi] at h
      subst h
      simp [acquisitions]
    | fail errno =>
      simp only [DiskUtil.lockLoop, hfi, Option.map_eq_some'] at h
      obtain ⟨tr1, h1, rfl⟩ := h
      have := ih (i + 1) tr1 h1
      simp only [acquisitions] at this
      simp [acquisitions, List.countP_cons, this]

theorem LockDirectory_fd (dirname : String) (fd : Nat) (flock : Nat → FlockResult) (fuel : Nat)
    (r : Int × List Event)
    (h : DiskUtil.LockDirectory dirname (some fd) flock fuel = some r) :
    r.1 = (fd : Int) ∧ acquisitions r.2 = 1 := by
  simp only [DiskUtil.LockDirectory, Option.map_eq_some'] at h
  obtain ⟨tr, htr, rfl⟩ := h
  have := acquisitions_lockLoop (fd : Int) flock fuel 0 tr htr
  simp only [acquisitions] at this
  simp [acquisitions, List.countP_cons, this]

theorem run_lockLoop_openFds (fd : Int) (flock : Nat → FlockResult) :
    ∀ (fuel i : Nat) (tr : List Event) (s : OsState),
      DiskUtil.lockLoop fd flock fuel i = some tr → (s.run tr).openFds = s.openFds := by
  intro fuel
  induction fuel with
  | zero => intro i tr s h; simp [DiskUtil.lockLoop] at h
  | succ f ih =>
    intro i tr s h
    cases hfi : flock i with
    | ok =>
      simp [DiskUtil.lockLoop, hfi] at h
      subst h
      simp [OsState.run, OsState.step]
    | fail errno =>
      simp only [DiskUtil.lockLoop, hfi, Option.map_eq_some'] at h
      obtain ⟨tr1, h1, rfl⟩ := h
      have := ih (i + 1) tr1 s h1
      simpa [OsState.run, OsState.step] using this

theorem Lock_from_unlocked (g : DirectoryLock) (s : OsState) (openR : Option Nat)
    (flock : Nat → FlockResult) (fuel : Nat) (r : Bool × DirectoryLock × List Event)
    (hg : g.fd_ = -1) (h : g.Lock openR flock fuel = some r) :
    (r.2.1.fd_ = -1 ∧ (s.run r.2.2).openFds = s.openFds) ∨
    (r.2.1.fd_ ≠ -1 ∧ (s.run r.2.2).openFds = r.2.1.fd_ :: s.openFds) := by
  simp only [DirectoryLock.Lock, hg, if_true] at h
  cases openR with
  | none =>
    simp only [DiskUtil.LockDirectory, Option.some.injEq] at h
    subst h
    left
    simp [hg, OsState.run, OsState.step]
  | some n =>
    cases hL : DiskUtil.lockLoop (n : Int) flock fuel 0 with
    | none => simp [DiskUtil.LockDirectory, hL] at h
    | some tr =>
      simp only [DiskUtil.LockDirectory, hL, Option.map_some', Option.some.injEq] at h
      subst h
      right
      have hn : (n : Int) ≠ -1 := by omega
      have hrun := run_lockLoop_openFds (n : Int) flock fuel 0 tr
        { s with openFds := (n : Int) :: s.openFds } hL
      refine ⟨hn, ?_⟩
      simpa [OsState.run, OsState.step, hn] using hrun

theorem apply_atMostHeld (w w1 : GuardWorld) (op : GuardOp) (hw : w.atMostHeld)
    (h : w.apply op = some w1) : w1.atMostHeld := by
  cases op with
  | lock openR flock fuel =>
    simp only [GuardWorld.apply, Option.map_eq_some'] at h
    obtain ⟨r, hr, rfl⟩ := h
    by_cases hg : w.guard.fd_ = -1
    · have hopen : w.os.openFds = [] := by
        rcases hw with h0 | ⟨h1, _⟩
        · exact h0
        · exact absurd hg h1
      rcases Lock_from_unlocked w.guard w.os openR flock fuel r hg hr with ⟨_, h2⟩ | ⟨h1, h2⟩
      · left; simp [h2, hopen]
      · right; exact ⟨h1, by simp [h2, hopen]⟩
    · simp only [DirectoryLock.Lock, hg, if_false, Option.some.injEq] at hr
      subst hr
      simpa [GuardWorld.atMostHeld, OsState.run] using hw
  | unlock unR closeR =>
    simp only [GuardWorld.apply, Option.some.injEq] at h
    subst h
    by_cases hg : w.guard.fd_ = -1
    · simpa [GuardWorld.atMostHeld, DirectoryLock.Unlock, hg, OsState.run] using hw
    · rcases hw with h0 | ⟨_, h2⟩
      · left
        cases unR <;> cases closeR with
        | ok => simp [DirectoryLock.Unlock, DiskUtil.UnlockDirectory, hg, OsState.run,
            OsState.step, h0]
        | failed b => cases b <;> simp [DirectoryLock.Unlock, DiskUtil.UnlockDirectory, hg,
            OsState.run, OsState.step, h0]
      · cases unR <;> cases closeR with
        | ok => simp [GuardWorld.atMostHeld, DirectoryLock.Unlock, DiskUtil.UnlockDirectory, hg,
            OsState.run, OsState.step, h2]
        | failed b => cases b <;> simp [GuardWorld.atMostHeld, DirectoryLock.Unlock,
            DiskUtil.UnlockDirectory, hg, OsState.run, OsState.step, h2]

theorem apply_exactlyHeld (w w1 : GuardWorld) (op : GuardOp) (hw : w.exactlyHeld)
    (hb : op.benign = true) (h : w.apply op = some w1) : w1.exactlyHeld := by
  cases op with
  | lock openR flock fuel =>
    simp only [GuardWorld.apply, Option.map_eq_some'] at h
    obtain ⟨r, hr, rfl⟩ := h
    by_cases hg : w.guard.fd_ = -1
    · have hopen : w.os.openFds = [] := by simpa [GuardWorld.exactlyHeld, hg] using hw
      rcases Lock_from_unlocked w.guard w.os openR flock fuel r hg hr with ⟨h1, h2⟩ | ⟨h1, h2⟩
      · simp [GuardWorld.exactlyHeld, h1, h2, hopen]
      · simp [GuardWorld.exactlyHeld, h1, h2, hopen]
    · simp only [DirectoryLock.Lock, hg, if_false, Option.some.injEq] at hr
      subst hr
      simpa [GuardWorld.exactlyHeld, OsState.run] using hw
  | unlock unR closeR =>
    simp only [GuardWorld.apply, Option.some.injEq] at h
    subst h
    by_cases hg : w.guard.fd_ = -1
    · simpa [GuardWorld.exactlyHeld, DirectoryLock.Unlock, hg, OsState.run] using hw
    · have hopen : w.os.openFds = [w.guard.fd_] := by
        simpa [GuardWorld.exactlyHeld, hg] using hw
      cases unR <;> cases closeR with
      | ok => simp [GuardWorld.exactlyHeld, DirectoryLock.Unlock, DiskUtil.UnlockDirectory, hg,
          OsState.run, OsState.step, hopen]
      | failed b =>
        cases b with
        | false => simp [GuardWorld.exactlyHeld, DirectoryLock.Unlock,
            DiskUtil.UnlockDirectory, hg, OsState.run, OsState.step, hopen]
        | true => simp [GuardOp.benign] at hb

theorem init_exactlyHeld (dirname : String) (lock : Bool) (openR : Option Nat)
    (flock : Nat → FlockResult) (fuel : Nat) (w0 : GuardWorld)
    (h : GuardWorld.init dirname lock openR flock fuel = some w0) : w0.exactlyHeld := by
  simp only [GuardWorld.init, Option.map_eq_some'] at h
  obtain ⟨r, hr, rfl⟩ := h
  cases lock with
  | false =>
    simp only [DirectoryLock.ctor, Bool.false_eq_true, if_false, Option.some.injEq] at hr
    subst hr
    simp [GuardWorld.exactlyHeld, OsState.run]
  | true =>
    simp only [DirectoryLock.ctor, if_true, Option.map_eq_some'] at hr
    obtain ⟨r1, hr1, rfl⟩ := hr
    rcases Lock_from_unlocked { fd_ := -1, dirname_ := dirname } { openFds := [], locked := [] }
      openR flock fuel r1 rfl hr1 with ⟨h1, h2⟩ | ⟨h1, h2⟩
    · simp [GuardWorld.exactlyHeld, h1, h2]
    · simp [GuardWorld.exactlyHeld, h1, h2]

theorem exactlyHeld_atMostHeld (w : GuardWorld) (h : w.exactlyHeld) : w.atMostHeld := by
  by_cases hg : w.guard.fd_ = -1
  · left; simpa [GuardWorld.exactlyHeld, hg] using h
  · right; exact ⟨hg, by simpa [GuardWorld.exactlyHeld, hg] using h⟩

theorem exec_atMostHeld (ops : List GuardOp) :
    ∀ (w w1 : GuardWorld), w.atMostHeld → w.exec ops = some w1 → w1.atMostHeld := by
  induction ops with
  | nil => intro w w1 hw h; simp only [GuardWorld.exec, Option.some.injEq] at h; exact h ▸ hw
  | cons op ops ih =>
    intro w w1 hw h
    simp only [GuardWorld.exec, Option.bind_eq_some] at h
    obtain ⟨w2, h2, h3⟩ := h
    exact ih w2 w1 (apply_atMostHeld w w2 op hw h2) h3

theorem exec_exactlyHeld (ops : List GuardOp) :
    ∀ (w w1 : GuardWorld), w.exactlyHeld → ops.all GuardOp.benign = true →
      w.exec ops = some w1 → w1.exactlyHeld := by
  induction ops with
  | nil => intro w w1 hw _ h; simp only [GuardWorld.exec, Option.some.injEq] at h; exact h ▸ hw
  | cons op ops ih =>
    intro w w1 hw hb h
    simp only [List.all_cons, Bool.and_eq_true] at hb
    simp only [GuardWorld.exec, Option.bind_eq_some] at h
    obtain ⟨w2, h2, h3⟩ := h
    exact ih w2 w1 (apply_exactlyHeld w w2 op hw hb.1 h2) hb.2 h3

/-! ## Acquisition: `LockDirectory` -/

/-- C6: once `open` has returned a descriptor, `LockDirectory` never returns -1, whatever the
outcomes of the lock attempts; and when the first `n` attempts fail and the next one succeeds,
the call returns the opened descriptor as soon as it is given room for `n + 1` iterations
(and not before), having made exactly `n + 1` lock attempts on that descriptor, each failed
one followed by a sleep of 10 s after `EWOULDBLOCK` and of 60 s after any other error.  This
holds for every `n`. -/
theorem LockDirectory_retries_until_success (dirname : String) (fd : Nat)
    (flock : Nat → FlockResult) (n : Nat)
    (hfail : ∀ i, i < n → flock i ≠ FlockResult.ok) (hok : flock n = FlockResult.ok) :
    (∀ (anyFlock : Nat → FlockResult) (fuel : Nat) (r : Int × List Event),
        DiskUtil.LockDirectory dirname (some fd) anyFlock fuel = some r → r.1 ≠ -1) ∧
    (∀ fuel, n < fuel →
        DiskUtil.LockDirectory dirname (some fd) flock fuel =
          some ((fd : Int), specAcquireTrace dirname (fd : Int) flock n)) ∧
    (∀ fuel, fuel ≤ n → DiskUtil.LockDirectory dirname (some fd) flock fuel = none) ∧
    lockAttempts (specAcquireTrace dirname (fd : Int) flock n) = n + 1 := by
  refine ⟨?_, ?_, ?_, ?_⟩
  · intro anyFlock fuel r h
    have := (LockDirectory_fd dirname fd anyFlock fuel r h).1
    omega
  · intro fuel hfuel
    have h := lockLoop_from (fd : Int) flock n 0 fuel
      (fun j hj => by simpa using hfail j hj) (by simpa using hok) hfuel
    simp [DiskUtil.LockDirectory, h, specAcquireTrace, List.range_eq_range']
  · intro fuel hfuel
    have h := lockLoop_starved (fd : Int) flock fuel 0
      (fun j hj => by simpa using hfail j (by omega))
    simp [DiskUtil.LockDirectory, h]
  · have h := lockAttempts_retry (fd : Int) flock n 0
    simp only [lockAttempts] at h
    simp [specAcquireTrace, lockAttempts, List.countP_cons, List.range_eq_range', h]

/-- C6 at two failed attempts (one contended, one with another error) before success. -/
theorem LockDirectory_retries_until_success_witness :
    DiskUtil.LockDirectory "/plots" (some 3) Fixture.flockTwoFailures 3 =
      some (3, [Event.openDir "/plots" 3,
                Event.flockEx 3 (FlockResult.fail EWOULDBLOCK), Event.sleep 10,
                Event.flockEx 3 (FlockResult.fail 13), Event.sleep 60,
                Event.flockEx 3 FlockResult.ok]) ∧
    DiskUtil.LockDirectory "/plots" (some 3) Fixture.flockTwoFailures 2 = none := by
  have h := LockDirectory_retries_until_success "/plots" 3 Fixture.flockTwoFailures 2
    (by intro i hi; interval_cases i <;> simp [Fixture.flockTwoFailures]) rfl
  refine ⟨?_, h.2.2.1 2 (Nat.le_refl 2)⟩
  rw [h.2.1 3 (by decide)]
  decide

/-- C7: when `open` fails, `LockDirectory` returns -1 for every fuel (zero included) and
whatever the lock attempts would give; the only system call made is the failed `open`, so
there is no lock attempt and no sleep, and no descriptor is produced.  `Lock()` on an
unlocked guard then returns false and leaves the guard unchanged, hence unlocked. -/
theorem LockDirectory_open_failure (dirname : String) (flock : Nat → FlockResult) (fuel : Nat)
    (s : OsState) (g : DirectoryLock) (hg : g.fd_ = -1) :
    DiskUtil.LockDirectory dirname none flock fuel =
      some (-1, [Event.openDir dirname (-1)]) ∧
    lockAttempts [Event.openDir dirname (-1)] = 0 ∧
    s.run [Event.openDir dirname (-1)] = s ∧
    g.Lock none flock fuel = some (false, g, [Event.openDir g.dirname_ (-1)]) ∧
    (∀ r, g.Lock none flock fuel = some r → r.2.1.fd_ = -1) := by
  have hL : g.Lock none flock fuel = some (false, g, [Event.openDir g.dirname_ (-1)]) := by
    cases g with
    | mk fd name =>
      simp only at hg
      subst hg
      simp [DirectoryLock.Lock, DiskUtil.LockDirectory]
  refine ⟨rfl, by simp [lockAttempts], by simp [OsState.run, OsState.step], hL, ?_⟩
  intro r hr
  rw [hL] at hr
  cases hr
  exact hg

/-- C7 on a missing directory, with no fuel at all. -/
theorem LockDirectory_open_failure_witness :
    DiskUtil.LockDirectory "/missing" none (fun _ => FlockResult.fail EWOULDBLOCK) 0 =
      some (-1, [Event.openDir "/missing" (-1)]) ∧
    DirectoryLock.Lock { fd_ := -1, dirname_ := "/missing" } none
      (fun _ => FlockResult.fail EWOULDBLOCK) 0 =
      some (false, { fd_ := -1, dirname_ := "/missing" }, [Event.openDir "/missing" (-1)]) :=
  have h := LockDirectory_open_failure "/missing" (fun _ => FlockResult.fail EWOULDBLOCK) 0
    { openFds := [], locked := [] } { fd_ := -1, dirname_ := "/missing" } rfl
  ⟨h.1, h.2.2.2.1⟩

/-! ## Release: `UnlockDirectory` -/

/-- C9 (as the code has it): `UnlockDirectory` issues the unlock on the handle and, only when
that succeeds, the close on the same handle, each at most once (no retry); it returns true
exactly when both calls were made and both reported success, it returns false as soon as one
of them fails, and on success a handle that was open and locked is neither open nor locked
afterwards.  A close is issued if and only if the unlock has succeeded. -/
theorem UnlockDirectory_success_iff (dir_fd : Int) (dirname : String) (unR : Bool)
    (closeR : CloseResult) :
    ((DiskUtil.UnlockDirectory dir_fd dirname unR closeR).1 = true ↔
      unR = true ∧ closeR = CloseResult.ok) ∧
    ((DiskUtil.UnlockDirectory dir_fd dirname unR closeR).1 = true ↔
      Event.flockUn dir_fd true ∈ (DiskUtil.UnlockDirectory dir_fd dirname unR closeR).2 ∧
      Event.close dir_fd CloseResult.ok ∈
        (DiskUtil.UnlockDirectory dir_fd dirname unR closeR).2) ∧
    (DiskUtil.UnlockDirectory dir_fd dirname unR closeR).2 =
      Event.flockUn dir_fd unR ::
        (if unR = true then [Event.close dir_fd closeR] else []) ∧
    ((DiskUtil.UnlockDirectory dir_fd dirname unR closeR).1 = true →
      OsState.run { openFds := [dir_fd], locked := [dir_fd] }
        (DiskUtil.UnlockDirectory dir_fd dirname unR closeR).2 =
          { openFds := [], locked := [] }) ∧
    ((∃ r, Event.close dir_fd r ∈ (DiskUtil.UnlockDirectory dir_fd dirname unR closeR).2) ↔
      unR = true) := by
  cases unR <;> cases closeR <;>
    simp [DiskUtil.UnlockDirectory, OsState.run, OsState.step]

/-- C9 (as the code has it) on descriptor 3: success when both calls succeed, failure when
the close fails. -/
theorem UnlockDirectory_success_iff_witness :
    ((DiskUtil.UnlockDirectory 3 "/plots" true CloseResult.ok).1 = true ↔
      true = true ∧ CloseResult.ok = CloseResult.ok) ∧
    ((DiskUtil.UnlockDirectory 3 "/plots" true (CloseResult.failed false)).1 = true ↔
      true = true ∧ CloseResult.failed false = CloseResult.ok) :=
  ⟨(UnlockDirectory_success_iff 3 "/plots" true CloseResult.ok).1,
   (UnlockDirectory_success_iff 3 "/plots" true (CloseResult.failed false)).1⟩

/-- C9 fails as stated: when the unlock call fails, `UnlockDirectory` returns false without
ever calling `close`; the handle has been neither unlocked nor closed. -/
theorem UnlockDirectory_skips_close_after_failed_unlock :
    DiskUtil.UnlockDirectory 3 "/plots" false CloseResult.ok = (false, [Event.flockUn 3 false]) ∧
    Event.close 3 CloseResult.ok ∉ (DiskUtil.UnlockDirectory 3 "/plots" false CloseResult.ok).2 ∧
    OsState.run { openFds := [3], locked := [3] }
      (DiskUtil.UnlockDirectory 3 "/plots" false CloseResult.ok).2 =
        { openFds := [3], locked := [3] } := by
  decide

/-! ## The guard: `DirectoryLock` -/

/-- C8: on a guard with `fd_ == -1`, `Unlock()` returns false, makes no system call and
leaves the guard as it was; a guard constructed without the lock flag is in that state, and
so is a guard whose `Unlock()` has succeeded. -/
theorem Unlock_unlocked_noop (g : DirectoryLock) (unR : Bool) (closeR : CloseResult)
    (hg : g.fd_ = -1) :
    g.Unlock unR closeR = (false, g, []) ∧
    (∀ (dirname : String) (openR : Option Nat) (flock : Nat → FlockResult) (fuel : Nat),
      DirectoryLock.ctor dirname false openR flock fuel =
        some ({ fd_ := -1, dirname_ := dirname }, [])) ∧
    (∀ (h : DirectoryLock), (h.Unlock true CloseResult.ok).2.1.fd_ = -1) := by
  refine ⟨by simp [DirectoryLock.Unlock, hg], ?_, ?_⟩
  · intro dirname openR flock fuel
    simp [DirectoryLock.ctor]
  · intro h
    by_cases hh : h.fd_ = -1
    · simp [DirectoryLock.Unlock, hh]
    · simp [DirectoryLock.Unlock, hh, DiskUtil.UnlockDirectory]

/-- C8 on a guard constructed without the lock flag. -/
theorem Unlock_unlocked_noop_witness :
    DirectoryLock.Unlock { fd_ := -1, dirname_ := "/plots" } true CloseResult.ok =
      (false, { fd_ := -1, dirname_ := "/plots" }, []) :=
  (Unlock_unlocked_noop { fd_ := -1, dirname_ := "/plots" } true CloseResult.ok rfl).1

/-- C1 (as the code has it): on a locked guard, `Unlock()` calls `UnlockDirectory` once on the
held handle and resets `fd_` to -1 exactly when that call reports success; when it reports
failure `Unlock()` returns false and the guard is left as it was, still locked. -/
theorem Unlock_locked_follows_release (g : DirectoryLock) (unR : Bool) (closeR : CloseResult)
    (hg : g.fd_ ≠ -1) :
    (g.Unlock unR closeR).2.2 = (DiskUtil.UnlockDirectory g.fd_ g.dirname_ unR closeR).2 ∧
    (g.Unlock unR closeR).1 = (DiskUtil.UnlockDirectory g.fd_ g.dirname_ unR closeR).1 ∧
    ((g.Unlock unR closeR).2.1.fd_ = -1 ↔
      (DiskUtil.UnlockDirectory g.fd_ g.dirname_ unR closeR).1 = true) ∧
    ((DiskUtil.UnlockDirectory g.fd_ g.dirname_ unR closeR).1 = false →
      (g.Unlock unR closeR).2.1 = g) := by
  cases unR <;> cases closeR <;>
    simp [DirectoryLock.Unlock, DiskUtil.UnlockDirectory, hg]

/-- C1 (as the code has it) on a guard holding descriptor 3, with a successful release. -/
theorem Unlock_locked_follows_release_witness :
    (DirectoryLock.Unlock { fd_ := 3, dirname_ := "/plots" } true CloseResult.ok).2.1.fd_ = -1 ↔
      (DiskUtil.UnlockDirectory 3 "/plots" true CloseResult.ok).1 = true :=
  (Unlock_locked_follows_release { fd_ := 3, dirname_ := "/plots" } true CloseResult.ok
    (by decide)).2.2.1

/-- C1 fails as stated: a locked guard whose release reports failure (here the unlock call
fails) is still locked after `Unlock()`. -/
theorem Unlock_failure_keeps_guard_locked :
    (DiskUtil.UnlockDirectory 3 "/plots" false CloseResult.ok).1 = false ∧
    (DirectoryLock.Unlock { fd_ := 3, dirname_ := "/plots" } false CloseResult.ok).2.1.fd_ = 3 ∧
    (DirectoryLock.Unlock { fd_ := 3, dirname_ := "/plots" } false CloseResult.ok).2.1.fd_
      ≠ -1 := by
  decide

/-- C4 (as the code has it): destroying a locked guard makes one release attempt on the held
handle, starting with the unlock call and issuing the close only when the unlock has
succeeded; a handle that was open and locked is neither open nor locked afterwards exactly
when the unlock call succeeds and the close call releases the descriptor, in particular when
both calls report success. -/
theorem dtor_releases_when_calls_succeed (g : DirectoryLock) (unR : Bool)
    (closeR : CloseResult) (hg : g.fd_ ≠ -1) :
    g.dtor unR closeR =
      Event.flockUn g.fd_ unR :: (if unR = true then [Event.close g.fd_ closeR] else []) ∧
    (OsState.run { openFds := [g.fd_], locked := [g.fd_] } (g.dtor unR closeR) =
        { openFds := [], locked := [] } ↔
      unR = true ∧ closeR ≠ CloseResult.failed false) ∧
    (unR = true → closeR = CloseResult.ok →
      OsState.run { openFds := [g.fd_], locked := [g.fd_] } (g.dtor unR closeR) =
        { openFds := [], locked := [] }) := by
  cases unR <;> cases closeR with
  | ok => simp [DirectoryLock.dtor, DirectoryLock.Unlock, DiskUtil.UnlockDirectory, hg,
      OsState.run, OsState.step]
  | failed b => cases b <;> simp [DirectoryLock.dtor, DirectoryLock.Unlock,
      DiskUtil.UnlockDirectory, hg, OsState.run, OsState.step]

/-- C4 (as the code has it) on a guard holding descriptor 3. -/
theorem dtor_releases_when_calls_succeed_witness :
    OsState.run { openFds := [3], locked := [3] }
      (DirectoryLock.dtor { fd_ := 3, dirname_ := "/plots" } true CloseResult.ok) =
        { openFds := [], locked := [] } :=
  (dtor_releases_when_calls_succeed { fd_ := 3, dirname_ := "/plots" } true CloseResult.ok
    (by decide)).2.2 rfl rfl

/-- C4 fails as stated: when the unlock call fails, the destructor of a locked guard never
calls `close`; the handle is still open and still locked afterwards. -/
theorem dtor_unlock_failure_leaves_handle :
    DirectoryLock.dtor { fd_ := 3, dirname_ := "/plots" } false CloseResult.ok =
      [Event.flockUn 3 false] ∧
    OsState.run { openFds := [3], locked := [3] }
      (DirectoryLock.dtor { fd_ := 3, dirname_ := "/plots" } false CloseResult.ok) =
        { openFds := [3], locked := [3] } := by
  decide

/-- C5 (as the code has it): on a guard whose directory `open` succeeds, two consecutive
`Lock()` calls without an `Unlock()` in between perform at most one acquisition and both
return true.  Whatever the lock attempts give, a first call that returns has returned true,
holds a handle, and contains at most one call of `LockDirectory`, and the second call then
returns true with no system call and the guard unchanged; the first call does return once the
lock attempts succeed after `n` failures and it is given room for `n + 1` iterations; and on
any guard that is already locked `Lock()` returns true, makes no system call and leaves the
guard unchanged. -/
theorem Lock_twice_when_open_succeeds (g : DirectoryLock) (fd : Nat)
    (flock1 flock2 : Nat → FlockResult) (n fuel1 fuel2 : Nat) (openR2 : Option Nat)
    (hfail : ∀ i, i < n → flock1 i ≠ FlockResult.ok) (hok : flock1 n = FlockResult.ok)
    (hfuel : n < fuel1) :
    (∃ r1, g.Lock (some fd) flock1 fuel1 = some r1) ∧
    (∀ (anyFlock : Nat → FlockResult) (anyFuel : Nat) (r1 : Bool × DirectoryLock × List Event),
      g.Lock (some fd) anyFlock anyFuel = some r1 →
        r1.1 = true ∧ r1.2.1.fd_ ≠ -1 ∧
        r1.2.1.Lock openR2 flock2 fuel2 = some (true, r1.2.1, []) ∧
        acquisitions (r1.2.2 ++ []) ≤ 1 ∧
        (g.fd_ = -1 → r1.2.1.fd_ = (fd : Int) ∧ acquisitions r1.2.2 = 1)) ∧
    (∀ (h : DirectoryLock), h.fd_ ≠ -1 → h.Lock openR2 flock2 fuel2 = some (true, h, [])) := by
  have hlocked : ∀ (h : DirectoryLock), h.fd_ ≠ -1 →
      h.Lock openR2 flock2 fuel2 = some (true, h, []) := by
    intro h hh
    simp [DirectoryLock.Lock, hh]
  refine ⟨?_, ?_, hlocked⟩
  · by_cases hg : g.fd_ = -1
    · have hloop := lockLoop_from (fd : Int) flock1 n 0 fuel1
        (fun j hj => by simpa using hfail j hj) (by simpa using hok) hfuel
      simp [DirectoryLock.Lock, hg, DiskUtil.LockDirectory, hloop]
    · simp [DirectoryLock.Lock, hg]
  · intro anyFlock anyFuel r1 hr1
    by_cases hg : g.fd_ = -1
    · simp only [DirectoryLock.Lock, hg, if_true] at hr1
      cases hL : DiskUtil.LockDirectory g.dirname_ (some fd) anyFlock anyFuel with
      | none => simp [hL] at hr1
      | some r =>
        obtain ⟨rfd, tr⟩ := r
        have hfd := LockDirectory_fd g.dirname_ fd anyFlock anyFuel (rfd, tr) hL
        simp only at hfd
        simp only [hL, Option.some.injEq] at hr1
        subst hr1
        have hne : rfd ≠ -1 := by omega
        refine ⟨by simpa using hne, hne, hlocked _ hne, ?_, fun _ => ⟨hfd.1, hfd.2⟩⟩
        simp only [List.append_nil]
        omega
    · simp only [DirectoryLock.Lock, hg, if_false, Option.some.injEq] at hr1
      subst hr1
      exact ⟨by simpa using hg, hg, hlocked _ hg, by simp [acquisitions],
        fun h => absurd h hg⟩

/-- C5 (as the code has it) on a fresh guard whose first `Lock()` acquires descriptor 3 at
the first attempt. -/
theorem Lock_twice_when_open_succeeds_witness :
    (∃ r1, DirectoryLock.Lock { fd_ := -1, dirname_ := "/plots" } (some 3)
      (fun _ => FlockResult.ok) 1 = some r1) ∧
    DirectoryLock.Lock { fd_ := 3, dirname_ := "/plots" } (some 4) (fun _ => FlockResult.ok) 1 =
      some (true, { fd_ := 3, dirname_ := "/plots" }, []) :=
  have h := Lock_twice_when_open_succeeds { fd_ := -1, dirname_ := "/plots" } 3
    (fun _ => FlockResult.ok) (fun _ => FlockResult.ok) 0 1 1 (some 4)
    (by intro i hi; omega) rfl (by decide)
  ⟨h.1, h.2.2 { fd_ := 3, dirname_ := "/plots" } (by decide)⟩

/-- C5 fails as stated: on a directory that cannot be opened, two consecutive `Lock()` calls
on a fresh guard both return false, and each of them calls `LockDirectory`: the two calls
together contain two acquisitions. -/
theorem Lock_twice_on_missing_directory :
    ((DirectoryLock.Lock { fd_ := -1, dirname_ := "/missing" } none
        (fun _ => FlockResult.ok) 1).bind
      (fun r1 => (r1.2.1.Lock none (fun _ => FlockResult.ok) 1).map
        (fun r2 => (r1.1, r2.1, acquisitions (r1.2.2 ++ r2.2.2))))) =
      some (false, false, 2) := by
  decide

/-- C10 (as the code has it): in every state reached by constructing a guard, with or without
the lock flag, and then calling `Lock()` and `Unlock()` in any order under any outcomes of
the system calls, a guard with `fd_ == -1` holds no open handle; and when no `close` has
failed while releasing the descriptor all the same, the open handles are exactly the one
stored in `fd_` of a locked guard, so the guard holds an open handle if and only if
`fd_ != -1`. -/
theorem guard_holds_handle_iff_locked (dirname : String) (lock : Bool) (openR : Option Nat)
    (flock : Nat → FlockResult) (fuel : Nat) (ops : List GuardOp) (w0 w : GuardWorld)
    (h0 : GuardWorld.init dirname lock openR flock fuel = some w0)
    (h : w0.exec ops = some w) :
    (w.guard.fd_ = -1 → w.os.openFds = []) ∧
    (ops.all GuardOp.benign = true →
      (w.os.openFds = if w.guard.fd_ = -1 then [] else [w.guard.fd_]) ∧
      (w.guard.fd_ ∈ w.os.openFds ↔ w.guard.fd_ ≠ -1)) := by
  have hinit := init_exactlyHeld dirname lock openR flock fuel w0 h0
  refine ⟨?_, ?_⟩
  · intro hg
    rcases exec_atMostHeld ops w0 w (exactlyHeld_atMostHeld w0 hinit) h with h1 | ⟨h1, _⟩
    · exact h1
    · exact absurd hg h1
  · intro hb
    have hex := exec_exactlyHeld ops w0 w hinit hb h
    refine ⟨hex, ?_⟩
    unfold GuardWorld.exactlyHeld at hex
    by_cases hg : w.guard.fd_ = -1
    · simp [hex, hg]
    · simp [hex, hg]

/-- C10 (as the code has it) on a guard that locks on construction, is unlocked, and is
locked again. -/
theorem guard_holds_handle_iff_locked_witness :
    GuardWorld.exec { guard := { fd_ := 3, dirname_ := "/plots" },
                      os := { openFds := [3], locked := [3] } }
      [GuardOp.unlock true CloseResult.ok, GuardOp.lock (some 4) (fun _ => FlockResult.ok) 1] =
      some { guard := { fd_ := 4, dirname_ := "/plots" },
             os := { openFds := [4], locked := [4] } } ∧
    ((4 : Int) ∈ [(4 : Int)] ↔ (4 : Int) ≠ -1) :=
  have h0 : GuardWorld.init "/plots" true (some 3) (fun _ => FlockResult.ok) 1 =
      some { guard := { fd_ := 3, dirname_ := "/plots" },
             os := { openFds := [3], locked := [3] } } := by decide
  have h : GuardWorld.exec { guard := { fd_ := 3, dirname_ := "/plots" },
                             os := { openFds := [3], locked := [3] } }
      [GuardOp.unlock true CloseResult.ok, GuardOp.lock (some 4) (fun _ => FlockResult.ok) 1] =
      some { guard := { fd_ := 4, dirname_ := "/plots" },
             os := { openFds := [4], locked := [4] } } := by decide
  ⟨h, ((guard_holds_handle_iff_locked "/plots" true (some 3) (fun _ => FlockResult.ok) 1
    [GuardOp.unlock true CloseResult.ok, GuardOp.lock (some 4) (fun _ => FlockResult.ok) 1]
    _ _ h0 h).2 (by decide)).2⟩

/-- C10 fails as stated: a guard locks on construction and is then unlocked; the unlock call
succeeds and `close` reports an error after releasing the descriptor.  `Unlock()` keeps
`fd_ == 3`, so the guard is in the locked state although descriptor 3 is no longer open. -/
theorem guard_locked_without_handle :
    ((GuardWorld.init "/plots" true (some 3) (fun _ => FlockResult.ok) 1).bind
      (fun w0 => w0.exec [GuardOp.unlock true (CloseResult.failed true)])) =
      some { guard := { fd_ := 3, dirname_ := "/plots" },
             os := { openFds := [], locked := [] } } ∧
    (3 : Int) ≠ -1 ∧ (3 : Int) ∉ ([] : List Int) := by
  decide

/-! ## Media detection: `IsRotational` -/

theorem parent_path_absolute (p : Path) (h : p.absolute = true) :
    p.parent_path.absolute = true := by
  unfold Path.parent_path
  split <;> simp [h]

theorem iterate_parent_absolute (p : Path) (h : p.absolute = true) (k : Nat) :
    (Path.parent_path^[k] p).absolute = true := by
  induction k generalizing p with
  | zero => simpa using h
  | succ k ih => simpa [Function.iterate_succ] using ih p.parent_path (parent_path_absolute p h)

theorem has_parent_path_of_absolute (p : Path) (h : p.absolute = true) :
    p.has_parent_path = true := by
  simp [Path.has_parent_path, Path.empty, parent_path_absolute p h]

theorem DevicePath_absolute (env : Env) (dev_id : Nat)
    (h : (DiskUtil.DevicePath env dev_id).empty = false) :
    (DiskUtil.DevicePath env dev_id).absolute = true := by
  simp only [DiskUtil.DevicePath] at h ⊢
  cases hr : env.realpath ("/sys/dev/block/" ++ toString (env.major dev_id) ++ ":" ++
      toString (env.minor dev_id)) with
  | none => simp [hr, Path.nil, Path.empty] at h
  | some cs => simp

theorem walkUp_found (env : Env) :
    ∀ (k fuel : Nat) (p : Path), p.absolute = true →
      (∀ j, j < k → env.fs_exists (DiskUtil.rotationalFile (Path.parent_path^[j] p)) = false) →
      env.fs_exists (DiskUtil.rotationalFile (Path.parent_path^[k] p)) = true → k < fuel →
      DiskUtil.walkUp env fuel p =
        some (some (DiskUtil.rotationalFile (Path.parent_path^[k] p))) := by
  intro k
  induction k with
  | zero =>
    intro fuel p _ _ hfound hfuel
    obtain ⟨f, rfl⟩ : ∃ f, fuel = f + 1 := ⟨fuel - 1, by omega⟩
    simp only [Function.iterate_zero, id_eq] at hfound
    simp [DiskUtil.walkUp, hfound]
  | succ k ih =>
    intro fuel p habs hmiss hfound hfuel
    obtain ⟨f, rfl⟩ : ∃ f, fuel = f + 1 := ⟨fuel - 1, by omega⟩
    have h0 : env.fs_exists (DiskUtil.rotationalFile p) = false := by
      simpa using hmiss 0 (Nat.succ_pos k)
    have ih1 := ih f p.parent_path (parent_path_absolute p habs)
      (fun j hj => by simpa [Function.iterate_succ] using hmiss (j + 1) (by omega))
      (by simpa [Function.iterate_succ] using hfound) (by omega)
    simp [DiskUtil.walkUp, h0, has_parent_path_of_absolute p habs, ih1, Function.iterate_succ]

theorem walkUp_spins (env : Env) :
    ∀ (fuel : Nat) (p : Path), p.absolute = true →
      (∀ j, env.fs_exists (DiskUtil.rotationalFile (Path.parent_path^[j] p)) = false) →
      DiskUtil.walkUp env fuel p = none := by
  intro fuel
  induction fuel with
  | zero => intro p _ _; rfl
  | succ f ih =>
    intro p habs hmiss
    have h0 : env.fs_exists (DiskUtil.rotationalFile p) = false := by simpa using hmiss 0
    have ih1 := ih p.parent_path (parent_path_absolute p habs)
      (fun j => by simpa [Function.iterate_succ] using hmiss (j + 1))
    simp [DiskUtil.walkUp, h0, has_parent_path_of_absolute p habs, ih1]

/-- The branch of `IsRotational` that reports "Unable to determine device media type" is
never taken on the absolute path `DevicePath` returns: the loop returns only through
`break`. -/
theorem walkUp_never_gives_up (env : Env) :
    ∀ (fuel : Nat) (p : Path), p.absolute = true → DiskUtil.walkUp env fuel p ≠ some none := by
  intro fuel
  induction fuel with
  | zero => intro p _; simp [DiskUtil.walkUp]
  | succ f ih =>
    intro p habs
    have ih1 := ih p.parent_path (parent_path_absolute p habs)
    by_cases h0 : env.fs_exists (DiskUtil.rotationalFile p) = true
    · simp [DiskUtil.walkUp, h0]
    · simpa [DiskUtil.walkUp, h0, has_parent_path_of_absolute p habs] using ih1

/-- The other failure branches of `IsRotational` return false: a failing `stat`, a failing
`realpath`, and an attribute file that is found but cannot be opened or read. -/
theorem IsRotational_false_on_failures (env : Env) (fuel : Nat) (dir : String) :
    (env.stat dir = none → DiskUtil.IsRotational env fuel dir = some false) ∧
    (∀ st_dev, env.stat dir = some st_dev →
      (DiskUtil.DevicePath env st_dev).empty = true →
      DiskUtil.IsRotational env fuel dir = some false) ∧
    (∀ st_dev filename, env.stat dir = some st_dev →
      (DiskUtil.DevicePath env st_dev).empty = false →
      DiskUtil.walkUp env fuel (DiskUtil.DevicePath env st_dev) = some (some filename) →
      (env.ifstream_open filename = none ∨ env.ifstream_open filename = some none) →
      DiskUtil.IsRotational env fuel dir = some false) := by
  refine ⟨?_, ?_, ?_⟩
  · intro h
    simp [DiskUtil.IsRotational, h]
  · intro st_dev h1 h2
    simp [DiskUtil.IsRotational, h1, h2]
  · intro st_dev filename h1 h2 h3 h4
    rcases h4 with h4 | h4
    · simp [DiskUtil.IsRotational, h1, h2, h3, h4]
    · simp [DiskUtil.IsRotational, h1, h2, h3, h4, DiskUtil.getline, DiskUtil.lineIsOne]

/-- C2 (as the code has it): when `stat` succeeds, the device link resolves, the attribute
`queue/rotational` is first found `k` levels above the device node and can be opened,
`IsRotational` returns (given room for `k + 1` iterations) and so does `ShouldLock`, with the
same value: true if and only if the first line of the attribute begins with the character
`1`.  In particular the value is true for the line `1` and false for the line `0`. -/
theorem IsRotational_iff_first_char (env : Env) (dir : String) (st_dev k : Nat)
    (content : Option String) (fuel : Nat)
    (hstat : env.stat dir = some st_dev)
    (hdev : (DiskUtil.DevicePath env st_dev).empty = false)
    (hmiss : ∀ j, j < k → env.fs_exists
      (DiskUtil.rotationalFile (Path.parent_path^[j] (DiskUtil.DevicePath env st_dev))) = false)
    (hfound : env.fs_exists
      (DiskUtil.rotationalFile (Path.parent_path^[k] (DiskUtil.DevicePath env st_dev))) = true)
    (hopen : env.ifstream_open
      (DiskUtil.rotationalFile (Path.parent_path^[k] (DiskUtil.DevicePath env st_dev))) =
        some content)
    (hfuel : k < fuel) :
    (∃ b, DiskUtil.IsRotational env fuel dir = some b ∧
      DiskUtil.ShouldLock env fuel dir = some b ∧
      (b = true ↔ ∃ rest, (DiskUtil.getline content).data = '1' :: rest)) ∧
    (DiskUtil.getline content = "1" → DiskUtil.IsRotational env fuel dir = some true) ∧
    (DiskUtil.getline content = "0" → DiskUtil.IsRotational env fuel dir = some false) := by
  have hwalk := walkUp_found env k fuel (DiskUtil.DevicePath env st_dev)
    (DevicePath_absolute env st_dev hdev) hmiss hfound hfuel
  have hval : DiskUtil.IsRotational env fuel dir =
      some (DiskUtil.lineIsOne (DiskUtil.getline content)) := by
    simp [DiskUtil.IsRotational, hstat, hdev, hwalk, hopen]
  refine ⟨⟨_, hval, by simpa [DiskUtil.ShouldLock] using hval, ?_⟩, ?_, ?_⟩
  · cases hd : (DiskUtil.getline content).data with
    | nil => simp [DiskUtil.lineIsOne, hd]
    | cons c cs => simp [DiskUtil.lineIsOne, hd]
  · intro h1
    rw [hval, h1]
    rfl
  · intro h0
    rw [hval, h0]
    rfl

/-- C2 (as the code has it) on a partition whose parent disk reports `1`. -/
theorem IsRotational_iff_first_char_witness :
    DiskUtil.IsRotational (Fixture.diskEnv "1\n") 2 "/plots" = some true :=
  (IsRotational_iff_first_char (Fixture.diskEnv "1\n") "/plots" 2049 1 (some "1\n") 2
    (by decide) (by decide)
    (by intro j hj; interval_cases j; decide)
    (by decide) (by decide) (by decide)).2.1 (by decide)

/-- C2 fails as stated: an attribute whose first line is `10`, which is not the string `1`,
makes `IsRotational` and `ShouldLock` return true. -/
theorem IsRotational_true_on_line_10 :
    DiskUtil.IsRotational (Fixture.diskEnv "10\n") 2 "/plots" = some true ∧
    DiskUtil.ShouldLock (Fixture.diskEnv "10\n") 2 "/plots" = some true ∧
    DiskUtil.getline (some "10\n") = "10" ∧
    DiskUtil.getline (some "10\n") ≠ "1" := by
  decide

/-- C3 at the failing input: `stat` succeeds, the device link resolves to
`/sys/devices/virtual/bdi`, and neither that node nor any of its ancestors up to `/` carries
`queue/rotational`.  The loop of `IsRotational` is still running after any number of
iterations: the call never returns, and in particular never returns false. -/
theorem IsRotational_never_returns_without_attribute :
    ∀ fuel : Nat, DiskUtil.IsRotational Fixture.bareEnv fuel "/plots" = none := by
  intro fuel
  have hwalk := walkUp_spins Fixture.bareEnv fuel
    (DiskUtil.DevicePath Fixture.bareEnv 35) (by decide) (fun _ => rfl)
  have hdev : (DiskUtil.DevicePath Fixture.bareEnv 35).empty = false := by decide
  have hstat : Fixture.bareEnv.stat "/plots" = some 35 := rfl
  simp [DiskUtil.IsRotational, hstat, hdev, hwalk]
